import Mathlib

/-!
Verification development for the G-Alpha squeeze-alerting engine.

The definitions below are shallow embeddings of the repository's JavaScript
sources, over exact rational arithmetic (`ℚ`):

* `MultiTF`     — src/scripts/multi-tf-analyzer.js (`calcEMA`, `calcRSI`)
* `EmaChecker`  — src/scripts/ema-checker.js (`calculateEMA`)
* `EmaBreakout` — src/scripts/ema-breakout-scanner.js (`calculateEMA`, `calculateRSI`)
* `Squeeze`     — the squeeze monitor (src/unnamed/part_002, lines 466-794):
                  Step-1 candidate rules, the RSI gate, conviction scoring,
                  the cooldown filter, and the persisted cooldown state.

JavaScript `null`/`undefined` is modelled with `Option`; JS truthiness tests
(`coin.oiUsd && ...`) are translated explicitly; fatal exits are modelled with
`Except`.  String-valued enumerations (sentiment, setup direction, EMA signal
types) are kept as `String`, exactly as the sources compare them.
-/

/-- Successive differences of a list: `pairDiffs [a, b, c] = [b - a, c - b]`.
Models the JS loops computing `closes[i] - closes[i-1]`. -/
def pairDiffs : List ℚ → List ℚ
  | a :: b :: rest => (b - a) :: pairDiffs (b :: rest)
  | _ => []

/-- Gain of one price delta, as accumulated by the RSI loops
(`if (diff > 0) gains += diff`). -/
def gainOf (d : ℚ) : ℚ := if d > 0 then d else 0

/-- Loss of one price delta, as accumulated by the RSI loops
(`else losses -= diff`). -/
def lossOf (d : ℚ) : ℚ := if d > 0 then 0 else -d

/-- One step of the gains/losses accumulator pair used by both RSI sources. -/
def glStep (gl : ℚ × ℚ) (d : ℚ) : ℚ × ℚ :=
  if d > 0 then (gl.1 + d, gl.2) else (gl.1, gl.2 - d)

namespace MultiTF

/-- src/scripts/multi-tf-analyzer.js, `calcEMA(closes, period)`:
null if fewer than `period` closes; otherwise seed with the mean of the first
`period` closes and fold `ema = close*k + ema*(1-k)` with `k = 2/(period+1)`
over the remaining closes. -/
def calcEMA (closes : List ℚ) (period : ℕ) : Option ℚ :=
  if closes.length < period then none
  else
    let k : ℚ := 2 / ((period : ℚ) + 1)
    let seed : ℚ := (closes.take period).foldl (· + ·) 0 / (period : ℚ)
    some ((closes.drop period).foldl (fun ema p => p * k + ema * (1 - k)) seed)

/-- src/scripts/multi-tf-analyzer.js, `calcRSI(closes, period = 14)`:
null if fewer than `period + 1` closes; otherwise sum gains and losses over
the deltas of the *last* `period + 1` closes (the loop runs
`i = closes.length - period .. closes.length - 1`), return 100 when the loss
sum is exactly zero, else `100 - 100/(1 + rs)` with
`rs = (gains/period)/(losses/period)`. -/
def calcRSI (closes : List ℚ) (period : ℕ := 14) : Option ℚ :=
  if closes.length < period + 1 then none
  else
    let gl := (pairDiffs (closes.drop (closes.length - (period + 1)))).foldl glStep (0, 0)
    if gl.2 = 0 then some 100
    else some (100 - 100 / (1 + (gl.1 / (period : ℚ)) / (gl.2 / (period : ℚ))))

end MultiTF

namespace EmaChecker

/-- src/scripts/ema-checker.js, `calculateEMA(prices, period)` — textually the
same algorithm as `MultiTF.calcEMA`. -/
def calculateEMA (prices : List ℚ) (period : ℕ) : Option ℚ :=
  if prices.length < period then none
  else
    let k : ℚ := 2 / ((period : ℚ) + 1)
    let seed : ℚ := (prices.take period).foldl (· + ·) 0 / (period : ℚ)
    some ((prices.drop period).foldl (fun ema p => p * k + ema * (1 - k)) seed)

end EmaChecker

namespace EmaBreakout

/-- src/scripts/ema-breakout-scanner.js, `calculateEMA(prices, period)`: the
variant that also reports the previous EMA for crossing detection; it demands
`period + 5` samples ("need a few extra for prev") and returns
`{current, prev}`. -/
def calculateEMA (prices : List ℚ) (period : ℕ) : Option ℚ × Option ℚ :=
  if prices.length < period + 5 then (none, none)
  else
    let k : ℚ := 2 / ((period : ℚ) + 1)
    let seed : ℚ := (prices.take period).foldl (· + ·) 0 / (period : ℚ)
    let res := (prices.drop period).foldl (fun s p => (p * k + s.1 * (1 - k), s.1)) (seed, seed)
    (some res.1, some res.2)

/-- JS `Math.round` (round half toward +infinity). -/
def jsRound (x : ℚ) : ℤ := ⌊x + 1 / 2⌋

/-- src/scripts/ema-breakout-scanner.js, `calculateRSI(closes, period = 14)`:
same accumulation as `MultiTF.calcRSI`, but compares `avgLoss === 0` and
rounds the result to two decimals. -/
def calculateRSI (closes : List ℚ) (period : ℕ := 14) : Option ℚ :=
  if closes.length < period + 1 then none
  else
    let gl := (pairDiffs (closes.drop (closes.length - (period + 1)))).foldl glStep (0, 0)
    let avgGain := gl.1 / (period : ℚ)
    let avgLoss := gl.2 / (period : ℚ)
    if avgLoss = 0 then some 100
    else some ((jsRound ((100 - 100 / (1 + avgGain / avgLoss)) * 100) : ℚ) / 100)

end EmaBreakout

/-- Modelled from the spec (section 4.1), for comparison with the code's RSI:
"Wilder smoothing — first average gain/loss over the first `period` deltas,
then avgGain' = (avgGain·(period−1) + gain)/period (symmetric for loss);
RSI = 100 − 100/(1+avgGain/avgLoss); RSI = 100 if avgLoss is exactly zero.
Signals insufficient data if length < period+1." -/
def wilderRSI (closes : List ℚ) (period : ℕ := 14) : Option ℚ :=
  if closes.length < period + 1 then none
  else
    let ds := pairDiffs closes
    let avg0 : ℚ × ℚ :=
      (((ds.take period).map gainOf).foldl (· + ·) 0 / (period : ℚ),
       ((ds.take period).map lossOf).foldl (· + ·) 0 / (period : ℚ))
    let fin := (ds.drop period).foldl
      (fun al d =>
        ((al.1 * ((period : ℚ) - 1) + gainOf d) / (period : ℚ),
         (al.2 * ((period : ℚ) - 1) + lossOf d) / (period : ℚ)))
      avg0
    if fin.2 = 0 then some 100
    else some (100 - 100 / (1 + fin.1 / fin.2))

/-! ### Helper lemmas for the indicator library -/

theorem foldl_add_eq_add_sum (l : List ℚ) (a : ℚ) : l.foldl (· + ·) a = a + l.sum := by
  induction l generalizing a with
  | nil => simp
  | cons x xs ih => simp [List.foldl_cons, ih (a + x), add_assoc]

theorem foldl_glStep_eq (l : List ℚ) (g h : ℚ) :
    l.foldl glStep (g, h) = (g + (l.map gainOf).sum, h + (l.map lossOf).sum) := by
  induction l generalizing g h with
  | nil => simp
  | cons d ds ih =>
      by_cases hd : d > 0 <;>
        simp [List.foldl_cons, glStep, gainOf, lossOf, hd, ih, add_assoc, sub_eq_add_neg]

theorem gain_sum_nonneg (l : List ℚ) : 0 ≤ (l.map gainOf).sum := by
  apply List.sum_nonneg
  intro x hx
  rcases List.mem_map.1 hx with ⟨d, _, rfl⟩
  unfold gainOf
  split <;> simp_all [le_of_lt]

theorem loss_sum_nonneg (l : List ℚ) : 0 ≤ (l.map lossOf).sum := by
  apply List.sum_nonneg
  intro x hx
  rcases List.mem_map.1 hx with ⟨d, _, rfl⟩
  unfold lossOf
  split <;> simp_all [le_of_lt]

theorem foldl_emaStep_fst (k : ℚ) (l : List ℚ) (a b : ℚ) :
    (l.foldl (fun s p => (p * k + s.1 * (1 - k), s.1)) (a, b)).1
      = l.foldl (fun ema p => p * k + ema * (1 - k)) a := by
  induction l generalizing a b with
  | nil => rfl
  | cons x xs ih => simp [List.foldl_cons, ih]

/-! ### Claim C2 — the RSI the code computes versus the spec's Wilder RSI -/

/-- Price series exhibiting the difference between Wilder smoothing and the
code's single-window average: sixteen closes, so one Wilder smoothing step
happens while the code just averages the last fourteen deltas. -/
def rsiProbe : List ℚ := [10, 11, 10, 11, 10, 11, 10, 11, 10, 11, 10, 11, 10, 11, 10, 20]

/-- C2, counterexample: on `rsiProbe` the repository's `calcRSI` returns
1600/23 ≈ 69.57 while the Wilder-smoothed RSI stipulated by the spec is
1650/23 ≈ 71.74, so `calcRSI` is not the Wilder-smoothed RSI. -/
theorem calcRSI_is_not_wilder :
    MultiTF.calcRSI rsiProbe 14 = some (1600 / 23) ∧
    wilderRSI rsiProbe 14 = some (1650 / 23) ∧
    (1600 / 23 : ℚ) ≠ 1650 / 23 := by
  refine ⟨?_, ?_, by norm_num⟩ <;>
    norm_num [MultiTF.calcRSI, wilderRSI, rsiProbe, pairDiffs, glStep, gainOf, lossOf]

/-- C2, amended: `calcRSI(series, period)` returns no value exactly when the
series length is below `period + 1`; otherwise it sums gains `G` and losses
`L` over the deltas of the last `period + 1` closes (a single window, no
Wilder smoothing), returns exactly 100 iff `L = 0`, and otherwise returns
`100 − 100/(1 + G/L)`, which is strictly below 100. -/
theorem calcRSI_characterization (closes : List ℚ) (period : ℕ) (hp : 0 < period) :
    (MultiTF.calcRSI closes period = none ↔ closes.length < period + 1) ∧
    (period + 1 ≤ closes.length →
      (((pairDiffs (closes.drop (closes.length - (period + 1)))).map lossOf).sum = 0 →
          MultiTF.calcRSI closes period = some 100) ∧
      (((pairDiffs (closes.drop (closes.length - (period + 1)))).map lossOf).sum ≠ 0 →
          MultiTF.calcRSI closes period
            = some (100 - 100 /
                (1 + ((pairDiffs (closes.drop (closes.length - (period + 1)))).map gainOf).sum /
                  ((pairDiffs (closes.drop (closes.length - (period + 1)))).map lossOf).sum)) ∧
          MultiTF.calcRSI closes period ≠ some 100)) := by
  constructor
  · rcases lt_or_ge closes.length (period + 1) with h | h
    · simp [MultiTF.calcRSI, h]
    · have hn : ¬ closes.length < period + 1 := not_lt.2 h
      simp only [MultiTF.calcRSI, hn, iff_false, if_false]
      split <;> simp
  · intro hge
    have hnot : ¬ closes.length < period + 1 := not_lt.2 hge
    set ds := pairDiffs (closes.drop (closes.length - (period + 1))) with hds
    have hfold : ds.foldl glStep ((0 : ℚ), (0 : ℚ))
        = ((ds.map gainOf).sum, (ds.map lossOf).sum) := by
      simpa only [zero_add] using foldl_glStep_eq ds 0 0
    constructor
    · intro hL
      unfold MultiTF.calcRSI
      rw [if_neg hnot, ← hds, hfold]
      simp [hL]
    · intro hL
      have hLpos : 0 < (ds.map lossOf).sum := lt_of_le_of_ne (loss_sum_nonneg ds) (Ne.symm hL)
      have hGnn : 0 ≤ (ds.map gainOf).sum := gain_sum_nonneg ds
      have hpq : (0 : ℚ) < (period : ℚ) := by exact_mod_cast hp
      have hdivdiv :
          ((ds.map gainOf).sum / (period : ℚ)) / ((ds.map lossOf).sum / (period : ℚ))
            = (ds.map gainOf).sum / (ds.map lossOf).sum := by
        field_simp
      have hval : MultiTF.calcRSI closes period
          = some (100 - 100 / (1 + (ds.map gainOf).sum / (ds.map lossOf).sum)) := by
        unfold MultiTF.calcRSI
        rw [if_neg hnot, ← hds, hfold]
        simp [hL, hdivdiv]
      refine ⟨hval, ?_⟩
      rw [hval]
      intro hcontra
      have h100 : (100 : ℚ) - 100 / (1 + (ds.map gainOf).sum / (ds.map lossOf).sum) = 100 :=
        Option.some_injective ℚ hcontra
      have hratio : 0 ≤ (ds.map gainOf).sum / (ds.map lossOf).sum :=
        div_nonneg hGnn (le_of_lt hLpos)
      have hpos : 0 < 1 + (ds.map gainOf).sum / (ds.map lossOf).sum := by linarith
      have : 0 < 100 / (1 + (ds.map gainOf).sum / (ds.map lossOf).sum) := by positivity
      linarith

/-- C8: the EMA routine returns no value exactly when the series is shorter
than `period`; on a series of length exactly `period` it returns the
arithmetic mean of the samples (the seed); appending one sample `x` to a
series with a defined EMA `e` yields `x·k + e·(1−k)` with `k = 2/(period+1)`,
which is the spec's iteration; the `multi-tf-analyzer` and `ema-checker`
copies agree; and the breakout-scanner variant (which also reports the
previous EMA for crossing detection) requires `period + 5` samples and agrees
with the plain EMA on its current value.  Purity and determinism are inherent
to the embedding (these are functions of the series alone). -/
theorem calculateEMA_spec (prices : List ℚ) (period : ℕ) (_hp : 0 < period) :
    (EmaChecker.calculateEMA prices period = none ↔ prices.length < period) ∧
    MultiTF.calcEMA prices period = EmaChecker.calculateEMA prices period ∧
    (prices.length = period →
      EmaChecker.calculateEMA prices period = some (prices.sum / (period : ℚ))) ∧
    (∀ e x, EmaChecker.calculateEMA prices period = some e →
      EmaChecker.calculateEMA (prices ++ [x]) period
        = some (x * (2 / ((period : ℚ) + 1)) + e * (1 - 2 / ((period : ℚ) + 1)))) ∧
    (EmaBreakout.calculateEMA prices period = (none, none) ↔ prices.length < period + 5) ∧
    (period + 5 ≤ prices.length →
      (EmaBreakout.calculateEMA prices period).1 = EmaChecker.calculateEMA prices period) := by
  refine ⟨?_, rfl, ?_, ?_, ?_, ?_⟩
  · unfold EmaChecker.calculateEMA
    split <;> simp_all
  · intro hlen
    unfold EmaChecker.calculateEMA
    rw [if_neg (by omega)]
    rw [← hlen, List.take_length, List.drop_length]
    simp [foldl_add_eq_add_sum]
  · intro e x he
    have hlen : ¬ prices.length < period := by
      by_contra hc
      simp [EmaChecker.calculateEMA, hc] at he
    have hle : period ≤ prices.length := not_lt.1 hlen
    have hlen2 : ¬ (prices ++ [x]).length < period := by
      simp only [List.length_append, List.length_cons, List.length_nil]
      omega
    unfold EmaChecker.calculateEMA at he ⊢
    rw [if_neg hlen] at he
    rw [if_neg hlen2, List.take_append_of_le_length hle,
      List.drop_append_of_le_length hle]
    simp only at he ⊢
    rw [List.foldl_append]
    simp only [List.foldl_cons, List.foldl_nil]
    rw [Option.some_injective ℚ he]
  · unfold EmaBreakout.calculateEMA
    split <;> simp_all
  · intro hlen
    have hn : ¬ prices.length < period + 5 := by omega
    have hle : period ≤ prices.length := by omega
    unfold EmaBreakout.calculateEMA EmaChecker.calculateEMA
    rw [if_neg hn, if_neg (by omega)]
    simp only
    rw [foldl_emaStep_fst]

/-- C8, witness: the characterization evaluated at a concrete series and
period: EMA([1,3], 2) = 2, and appending 4 gives 4·(2/3) + 2·(1/3) = 10/3. -/
theorem calculateEMA_spec_witness :
    EmaChecker.calculateEMA ([1, 3] ++ [4]) 2
      = some (4 * (2 / ((2 : ℚ) + 1)) + 2 * (1 - 2 / ((2 : ℚ) + 1))) := by
  have h := calculateEMA_spec [1, 3] 2 (by norm_num)
  refine h.2.2.2.1 2 4 ?_
  have h2 := h.2.1.symm.trans (h.2.2.1 rfl)
  rw [(h.2.2.1 rfl : EmaChecker.calculateEMA [1, 3] 2 = _)]
  norm_num

/-- C2, witness: the amended characterization evaluated on `rsiProbe`. -/
theorem calcRSI_characterization_witness :
    MultiTF.calcRSI rsiProbe 14
      = some (100 - 100 /
          (1 + ((pairDiffs (rsiProbe.drop (rsiProbe.length - 15))).map gainOf).sum /
            ((pairDiffs (rsiProbe.drop (rsiProbe.length - 15))).map lossOf).sum)) := by
  have h := calcRSI_characterization rsiProbe 14 (by norm_num)
  exact ((h.2 (by norm_num [rsiProbe])).2 (by
    norm_num [rsiProbe, pairDiffs, lossOf])).1

namespace Squeeze

/-! ### Squeeze monitor (src/unnamed/part_002, lines 466-794)

The monitor reads `funding-rates-latest.json` (mandatory: missing file exits
with code 1, unparseable JSON throws out of the un-caught synchronous
`main()`), and five optional snapshots (RSI, EMA, multi-timeframe, orderbook,
volume), each wrapped in try/catch that degrades to an empty map.  Per
funding entry it applies the Step-1 rules, the RSI gate, conviction scoring,
then the cooldown filter, finally writing `squeeze-latest.json` and the
cooldown state file. -/

/-- One entry of `funding-rates-latest.json`'s `coins` array, restricted to
the fields the monitor reads.  `oiUsd` is `null`-able (`Option`);
`sentiment` is the raw string from the snapshot. -/
structure FundingCoin where
  coin : String
  avgRate : ℚ
  minRate : ℚ
  maxRate : ℚ
  oiUsd : Option ℚ
  sentiment : String

/-- One entry of `ema-latest.json` kept by the loader (entries with `error`
are skipped at load time).  `signalTypes` lists the `type` fields of the
entry's `signals` array (an absent array behaves as empty under `some(...)`). -/
structure EmaEntry where
  trend : String
  alignment : String
  priceVsEMA200 : ℚ
  signalTypes : List String

/-- One entry of `multi-tf-latest.json`'s `results`. -/
structure MtfEntry where
  alignment : String
  rsiDivergence : Option String

/-- One entry of `orderbook-depth-latest.json`'s `results` kept by the
loader; only `pressure` influences the control flow modelled here (the
imbalance and wall fields feed only note strings). -/
structure ObEntry where
  pressure : String

/-- The conviction grade, a four-valued string in the source
(`MEDIUM`, `MEDIUM-HIGH`, `HIGH`, `VERY HIGH`). -/
inductive Conviction where
  | MEDIUM
  | MEDIUM_HIGH
  | HIGH
  | VERY_HIGH
deriving DecidableEq

/-- Numeric level of a conviction grade, for monotonicity statements. -/
def Conviction.rank : Conviction → ℕ
  | .MEDIUM => 0
  | .MEDIUM_HIGH => 1
  | .HIGH => 2
  | .VERY_HIGH => 3

/-- The alert record pushed into `alerts`, restricted to the fields that
claims speak about (the human-readable note strings `rsiNote`, `emaNote`,
`mtfNote`, `obNote`, `volNote` and `reason` never influence control flow and
are omitted; `rsiOut` models the emitted `rsi: rsi || null`). -/
structure Alert where
  coin : String
  avgRate : ℚ
  oiUsd : Option ℚ
  sentiment : String
  setupDirection : String
  rsiOut : Option ℚ
  emaConfirms : Bool
  tripleConfluence : Bool
  conviction : Conviction

/-- `OI_THRESHOLD = 1_000_000` ($1M). -/
def OI_THRESHOLD : ℚ := 1000000

/-- `DIVERGENCE_THRESHOLD = 0.002`. -/
def DIVERGENCE_THRESHOLD : ℚ := 0.002

/-- `COOLDOWN = 4 * 60 * 60 * 1000` milliseconds (4 hours). -/
def COOLDOWN : ℤ := 4 * 60 * 60 * 1000

/-- JS truthiness-guarded open-interest test
`coin.oiUsd && coin.oiUsd > OI_THRESHOLD` (null/undefined and 0 are falsy). -/
def oiAboveThreshold : Option ℚ → Bool
  | none => false
  | some v => !(v == 0) && decide (v > OI_THRESHOLD)

/-- Step-1 rule 1: `isCrowded && hasHighOI`. -/
def rule1 (c : FundingCoin) : Bool :=
  (c.sentiment == "shorts_crowded" || c.sentiment == "longs_crowded")
    && oiAboveThreshold c.oiUsd

/-- Step-1 rule 2: exchange divergence — `spread > DIVERGENCE_THRESHOLD &&
coin.oiUsd && coin.oiUsd > OI_THRESHOLD && absRate >= 0.006`. -/
def rule2 (c : FundingCoin) : Bool :=
  decide (c.maxRate - c.minRate > DIVERGENCE_THRESHOLD)
    && oiAboveThreshold c.oiUsd
    && decide (|c.avgRate| ≥ 0.006)

/-- `reasons.length === 0` iff neither Step-1 rule fired; a coin with no
reason is skipped (`continue`). -/
def passesStep1 (c : FundingCoin) : Bool := rule1 c || rule2 c

/-- EMA confluence check (Step 3): returns `(emaConfirms, conviction)` after
the `if (ema) {...}` block, starting from the base conviction `MEDIUM`. -/
def emaStep (setupDirection : String) (ema : Option EmaEntry) : Bool × Conviction :=
  match ema with
  | none => (false, .MEDIUM)
  | some e =>
    if setupDirection == "LONG" then
      if e.signalTypes.any (fun s => s == "NEAR_EMA200" || s == "CROSS_ABOVE_200") then
        (true, .HIGH)
      else if e.priceVsEMA200 < -30 then (false, .MEDIUM_HIGH)
      else (false, .MEDIUM)
    else if setupDirection == "SHORT" then
      if e.signalTypes.any (fun s => s == "NEAR_EMA200" || s == "CROSS_BELOW_200") then
        (true, .HIGH)
      else if e.alignment == "BEARISH" then (true, .MEDIUM_HIGH)
      else (false, .MEDIUM)
    else (false, .MEDIUM)

/-- Step 4: `if (tripleConfluence) conviction = 'HIGH'`. -/
def tripleStep (triple : Bool) (cv : Conviction) : Conviction :=
  if triple then .HIGH else cv

/-- Step 5: multi-timeframe alignment boost — raises to `VERY HIGH` only on
direction-matching alignment while triple confluence holds. -/
def mtfStep (setupDirection : String) (mtf : Option MtfEntry) (triple : Bool)
    (cv : Conviction) : Conviction :=
  match mtf with
  | none => cv
  | some m =>
    if setupDirection == "LONG" && m.alignment == "BEARISH_ALIGNED" then
      if triple then .VERY_HIGH else cv
    else if setupDirection == "SHORT" && m.alignment == "BULLISH_ALIGNED" then
      if triple then .VERY_HIGH else cv
    else cv

/-- Step 6: orderbook pressure — promotes `HIGH` to `VERY HIGH` on
direction-matching pressure. -/
def obStep (setupDirection : String) (ob : Option ObEntry) (cv : Conviction) : Conviction :=
  match ob with
  | none => cv
  | some o =>
    if setupDirection == "LONG" && o.pressure == "buy_pressure" then
      if cv == Conviction.HIGH then .VERY_HIGH else cv
    else if setupDirection == "SHORT" && o.pressure == "sell_pressure" then
      if cv == Conviction.HIGH then .VERY_HIGH else cv
    else cv

/-- Steps 3-7 for a gated candidate: EMA scoring, triple-confluence flag,
multi-timeframe boost, orderbook boost (the volume step only writes a note),
then the alert record is assembled. -/
def scoreAlert (emaData : String → Option EmaEntry) (mtfData : String → Option MtfEntry)
    (obData : String → Option ObEntry) (c : FundingCoin) (rsi : ℚ)
    (setupDirection : String) : Alert :=
  let rsiValid := true
  let s3 := emaStep setupDirection (emaData c.coin)
  let triple := rsiValid && s3.1
  let cv4 := tripleStep triple s3.2
  let cv5 := mtfStep setupDirection (mtfData c.coin) triple cv4
  let cv6 := obStep setupDirection (obData c.coin) cv5
  { coin := c.coin
    avgRate := c.avgRate
    oiUsd := c.oiUsd
    sentiment := c.sentiment
    setupDirection := setupDirection
    rsiOut := if rsi == 0 then none else some rsi
    emaConfirms := s3.1
    tripleConfluence := triple
    conviction := cv6 }

/-- The body of the per-coin loop: Step-1 rules, then the mandatory RSI gate
(`rsi !== undefined` and the directional bound, else `continue`), then
scoring.  Returns the alert pushed into `alerts`, or `none` when the coin is
skipped. -/
def evalCoin (rsiData : String → Option ℚ) (emaData : String → Option EmaEntry)
    (mtfData : String → Option MtfEntry) (obData : String → Option ObEntry)
    (c : FundingCoin) : Option Alert :=
  if !passesStep1 c then none
  else
    match rsiData c.coin with
    | none => none
    | some rsi =>
      if c.sentiment = "shorts_crowded" ∧ rsi ≤ 35 then
        some (scoreAlert emaData mtfData obData c rsi "LONG")
      else if c.sentiment = "longs_crowded" ∧ rsi ≥ 65 then
        some (scoreAlert emaData mtfData obData c rsi "SHORT")
      else none

/-- Cooldown state: the `lastAlerted` object of `squeeze-state.json`, an
association list key → epoch-millis (`Date.now()` values). -/
abbrev CooldownState : Type := List (String × ℕ)

/-- The cooldown key `` `${a.sentiment}_${a.coin}` ``. -/
def alertKey (a : Alert) : String := a.sentiment ++ "_" ++ a.coin

/-- `state.lastAlerted[key] || 0`. -/
def lookupTs (st : CooldownState) (k : String) : ℕ := (List.lookup k st).getD 0

/-- Setting `state.lastAlerted[key] = now` on a JS object: replace the value
if the key exists, otherwise append the binding. -/
def insertTs (st : CooldownState) (k : String) (v : ℕ) : CooldownState :=
  if st.any (fun p => p.1 == k) then
    st.map (fun p => if p.1 == k then (k, v) else p)
  else st ++ [(k, v)]

/-- All file inputs of one run plus the clock.  `none` for `funding` means
the funding snapshot is absent or unparseable (both are fatal in the source:
explicit `process.exit(1)` or an exception thrown out of `main()`); `none`
for the other snapshots means absent/unparseable, which their try/catch
blocks degrade to an empty map. -/
structure RunInput where
  funding : Option (List FundingCoin)
  rsi : Option (List (String × ℚ))
  ema : Option (List (String × EmaEntry))
  mtf : Option (List (String × MtfEntry))
  ob : Option (List (String × ObEntry))
  state0 : CooldownState
  now : ℕ

/-- What a completed run writes: the `squeeze-latest.json` artifact
(`hasNewAlerts`, `alerts`, `allCandidates`) and the persisted cooldown
state. -/
structure RunOutput where
  hasNewAlerts : Bool
  alerts : List Alert
  allCandidates : List Alert
  finalState : CooldownState

/-- The RSI map built from `rsi-latest.json` (its try/catch degrades an
absent or unparseable file to the empty map). -/
def rsiDataOf (inp : RunInput) : String → Option ℚ :=
  fun t => List.lookup t (inp.rsi.getD [])

/-- The EMA map (same degradation). -/
def emaDataOf (inp : RunInput) : String → Option EmaEntry :=
  fun t => List.lookup t (inp.ema.getD [])

/-- The multi-timeframe map (same degradation). -/
def mtfDataOf (inp : RunInput) : String → Option MtfEntry :=
  fun t => List.lookup t (inp.mtf.getD [])

/-- The orderbook map (same degradation). -/
def obDataOf (inp : RunInput) : String → Option ObEntry :=
  fun t => List.lookup t (inp.ob.getD [])

/-- The `alerts` array accumulated by the per-coin loop (later exposed as
`allCandidates`). -/
def candidatesOf (inp : RunInput) (coins : List FundingCoin) : List Alert :=
  coins.filterMap (evalCoin (rsiDataOf inp) (emaDataOf inp) (mtfDataOf inp) (obDataOf inp))

/-- The cooldown predicate of the `newAlerts` filter:
`(now - (state.lastAlerted[key] || 0)) > COOLDOWN`. -/
def pastCooldown (inp : RunInput) (a : Alert) : Bool :=
  decide ((inp.now : ℤ) - (lookupTs inp.state0 (alertKey a) : ℤ) > COOLDOWN)

/-- `newAlerts`: candidates surviving the cooldown filter. -/
def newAlertsOf (inp : RunInput) (coins : List FundingCoin) : List Alert :=
  (candidatesOf inp coins).filter (pastCooldown inp)

/-- The persisted state after the run: `state.lastAlerted[key] = now` for
every new alert. -/
def finalStateOf (inp : RunInput) (coins : List FundingCoin) : CooldownState :=
  (newAlertsOf inp coins).foldl (fun st a => insertTs st (alertKey a) inp.now) inp.state0

/-- One run of `main()`.  `Except.error ()` models the fatal paths (non-zero
process exit before the output artifact or the state file is written);
`Except.ok` models a completed run, which always writes both files. -/
def runSqueeze (inp : RunInput) : Except Unit RunOutput :=
  match inp.funding with
  | none => .error ()
  | some coins =>
    .ok
      { hasNewAlerts := decide (0 < (newAlertsOf inp coins).length)
        alerts := newAlertsOf inp coins
        allCandidates := candidatesOf inp coins
        finalState := finalStateOf inp coins }

/-! ### Inversion and field lemmas for the per-coin evaluation -/

theorem scoreAlert_fields (e : String → Option EmaEntry) (m : String → Option MtfEntry)
    (o : String → Option ObEntry) (c : FundingCoin) (rsi : ℚ) (d : String) :
    (scoreAlert e m o c rsi d).coin = c.coin ∧
    (scoreAlert e m o c rsi d).sentiment = c.sentiment ∧
    (scoreAlert e m o c rsi d).setupDirection = d ∧
    (scoreAlert e m o c rsi d).emaConfirms = (emaStep d (e c.coin)).1 ∧
    (scoreAlert e m o c rsi d).tripleConfluence = (emaStep d (e c.coin)).1 ∧
    (scoreAlert e m o c rsi d).conviction
      = obStep d (o c.coin)
          (mtfStep d (m c.coin) (emaStep d (e c.coin)).1
            (tripleStep (emaStep d (e c.coin)).1 (emaStep d (e c.coin)).2)) := by
  refine ⟨rfl, rfl, rfl, ?_, ?_, ?_⟩ <;> simp [scoreAlert]

theorem evalCoin_some_iff (r : String → Option ℚ) (e : String → Option EmaEntry)
    (m : String → Option MtfEntry) (o : String → Option ObEntry)
    (c : FundingCoin) (a : Alert) :
    evalCoin r e m o c = some a ↔
      passesStep1 c = true ∧
      ∃ rsi, r c.coin = some rsi ∧
        ((c.sentiment = "shorts_crowded" ∧ rsi ≤ 35 ∧
            a = scoreAlert e m o c rsi "LONG") ∨
         (c.sentiment = "longs_crowded" ∧ 65 ≤ rsi ∧
            a = scoreAlert e m o c rsi "SHORT")) := by
  unfold evalCoin
  rcases hp : passesStep1 c with _ | _
  · simp [hp]
  · simp only [hp, Bool.not_true, Bool.false_eq_true, if_false, true_and]
    cases hr : r c.coin with
    | none => simp
    | some rsi =>
      dsimp only
      by_cases h1 : c.sentiment = "shorts_crowded" ∧ rsi ≤ 35
      · rw [if_pos h1]
        constructor
        · intro h
          exact ⟨rsi, rfl, Or.inl ⟨h1.1, h1.2, (Option.some_injective _ h).symm⟩⟩
        · rintro ⟨rsi', heq, hor⟩
          obtain rfl : rsi' = rsi := Option.some_injective _ heq.symm
          rcases hor with ⟨-, -, rfl⟩ | ⟨hs, -, -⟩
          · rfl
          · rw [h1.1] at hs
            exact absurd hs (by decide)
      · rw [if_neg h1]
        by_cases h2 : c.sentiment = "longs_crowded" ∧ 65 ≤ rsi
        · rw [if_pos h2]
          constructor
          · intro h
            exact ⟨rsi, rfl, Or.inr ⟨h2.1, h2.2, (Option.some_injective _ h).symm⟩⟩
          · rintro ⟨rsi', heq, hor⟩
            obtain rfl : rsi' = rsi := Option.some_injective _ heq.symm
            rcases hor with ⟨hs, -, -⟩ | ⟨-, -, rfl⟩
            · rw [h2.1] at hs
              exact absurd hs (by decide)
            · rfl
        · rw [if_neg h2]
          constructor
          · intro h
            simp at h
          · rintro ⟨rsi', heq, hor⟩
            obtain rfl : rsi' = rsi := Option.some_injective _ heq.symm
            rcases hor with ⟨hs, hb, -⟩ | ⟨hs, hb, -⟩
            · exact absurd ⟨hs, hb⟩ h1
            · exact absurd ⟨hs, hb⟩ h2

theorem evalCoin_none_of_rsi_missing (r : String → Option ℚ) (e : String → Option EmaEntry)
    (m : String → Option MtfEntry) (o : String → Option ObEntry) (c : FundingCoin)
    (h : r c.coin = none) : evalCoin r e m o c = none := by
  unfold evalCoin
  rcases hp : passesStep1 c with _ | _
  · simp
  · simp [h]

/-! ### Claim C3 — Step-1 candidate rules -/

/-- The Step-1 rule exactly as the spec words it. -/
def step1Spec (c : FundingCoin) : Prop :=
  ((c.sentiment = "shorts_crowded" ∨ c.sentiment = "longs_crowded") ∧
      ∃ v, c.oiUsd = some v ∧ v > 1000000) ∨
  (c.maxRate - c.minRate > 0.002 ∧ (∃ v, c.oiUsd = some v ∧ v > 1000000) ∧
      |c.avgRate| ≥ 0.006)

theorem oiAboveThreshold_iff (o : Option ℚ) :
    oiAboveThreshold o = true ↔ ∃ v, o = some v ∧ v > 1000000 := by
  cases o with
  | none => simp [oiAboveThreshold]
  | some v =>
    simp only [oiAboveThreshold, Bool.and_eq_true, Bool.not_eq_true', beq_eq_false_iff_ne,
      decide_eq_true_eq, OI_THRESHOLD, Option.some_inj]
    constructor
    · rintro ⟨-, hv⟩
      exact ⟨v, rfl, hv⟩
    · rintro ⟨w, hw1, hw2⟩
      subst hw1
      exact ⟨ne_of_gt (lt_trans (by norm_num) hw2), hw2⟩

/-- C3: a coin survives Step 1 (and hence can become a candidate at all)
exactly under the spec's rule; the open-interest bound is strict
(OI = $1,000,000 never fires either rule, $1,000,001 fires rule 1 for a
crowded coin); coins firing no rule are skipped before the RSI gate. -/
theorem step1_characterization (r : String → Option ℚ) (e : String → Option EmaEntry)
    (m : String → Option MtfEntry) (o : String → Option ObEntry) (c : FundingCoin) :
    (passesStep1 c = true ↔ step1Spec c) ∧
    ((evalCoin r e m o c).isSome = true → step1Spec c) ∧
    (c.oiUsd = some 1000000 → passesStep1 c = false) ∧
    (c.oiUsd = some 1000001 →
      (c.sentiment = "shorts_crowded" ∨ c.sentiment = "longs_crowded") →
      passesStep1 c = true) ∧
    (¬ step1Spec c → evalCoin r e m o c = none) := by
  have hiff : passesStep1 c = true ↔ step1Spec c := by
    simp only [passesStep1, rule1, rule2, step1Spec, Bool.or_eq_true, Bool.and_eq_true,
      beq_iff_eq, decide_eq_true_eq, oiAboveThreshold_iff, DIVERGENCE_THRESHOLD]
    constructor
    · rintro (⟨hs, hoi⟩ | ⟨⟨hspread, hoi⟩, habs⟩)
      · exact Or.inl ⟨hs, hoi⟩
      · exact Or.inr ⟨hspread, hoi, habs⟩
    · rintro (⟨hs, hoi⟩ | ⟨hspread, hoi, habs⟩)
      · exact Or.inl ⟨hs, hoi⟩
      · exact Or.inr ⟨⟨hspread, hoi⟩, habs⟩
  refine ⟨hiff, ?_, ?_, ?_, ?_⟩
  · intro hs
    rcases Option.isSome_iff_exists.1 hs with ⟨a, ha⟩
    exact hiff.1 ((evalCoin_some_iff r e m o c a).1 ha).1
  · intro h1M
    rcases hps : passesStep1 c with _ | _
    · rfl
    · exfalso
      rcases hiff.1 hps with ⟨-, v, hv, hgt⟩ | ⟨-, ⟨v, hv, hgt⟩, -⟩ <;>
        (rw [h1M] at hv
         have : v = 1000000 := (Option.some_injective _ hv).symm
         subst this
         norm_num at hgt)
  · intro hoi hcrowd
    apply hiff.2
    exact Or.inl ⟨hcrowd, 1000001, hoi, by norm_num⟩
  · intro hns
    have hps : passesStep1 c = false := by
      rcases hq : passesStep1 c with _ | _
      · rfl
      · exact absurd (hiff.1 hq) hns
    unfold evalCoin
    simp [hps]

/-- C3, witness: the characterization at the boundary inputs — a
shorts-crowded coin with OI exactly $1,000,000 fires no rule, the same coin
with OI $1,000,001 fires rule 1. -/
theorem step1_characterization_witness :
    passesStep1
        { coin := "BTC", avgRate := -8 / 1000, minRate := -8 / 1000,
          maxRate := -8 / 1000, oiUsd := some 1000000,
          sentiment := "shorts_crowded" } = false ∧
    passesStep1
        { coin := "BTC", avgRate := -8 / 1000, minRate := -8 / 1000,
          maxRate := -8 / 1000, oiUsd := some 1000001,
          sentiment := "shorts_crowded" } = true := by
  constructor
  · exact (step1_characterization (fun _ => none) (fun _ => none) (fun _ => none)
      (fun _ => none) _).2.2.1 rfl
  · exact (step1_characterization (fun _ => none) (fun _ => none) (fun _ => none)
      (fun _ => none) _).2.2.2.1 rfl (Or.inl rfl)

/-! ### Claim C4 — the mandatory directional RSI gate -/

/-- C4: with Step 1 passed, a candidate survives iff its per-instrument RSI
value is present and within the exact directional bound — LONG
(shorts_crowded) iff RSI ≤ 35, SHORT (longs_crowded) iff RSI ≥ 65 — and a
coin whose RSI value is missing is dropped unconditionally, whatever its
funding numbers. -/
theorem rsiGate_characterization (r : String → Option ℚ) (e : String → Option EmaEntry)
    (m : String → Option MtfEntry) (o : String → Option ObEntry) (c : FundingCoin) :
    (r c.coin = none → evalCoin r e m o c = none) ∧
    (passesStep1 c = true →
      ((evalCoin r e m o c).isSome = true ↔
        ∃ rsi, r c.coin = some rsi ∧
          ((c.sentiment = "shorts_crowded" ∧ rsi ≤ 35) ∨
           (c.sentiment = "longs_crowded" ∧ 65 ≤ rsi)))) := by
  constructor
  · exact evalCoin_none_of_rsi_missing r e m o c
  · intro hps
    rw [Option.isSome_iff_exists]
    constructor
    · rintro ⟨a, ha⟩
      rcases ((evalCoin_some_iff r e m o c a).1 ha).2 with ⟨rsi, hr, hor⟩
      rcases hor with ⟨hs, hb, -⟩ | ⟨hs, hb, -⟩
      · exact ⟨rsi, hr, Or.inl ⟨hs, hb⟩⟩
      · exact ⟨rsi, hr, Or.inr ⟨hs, hb⟩⟩
    · rintro ⟨rsi, hr, hor⟩
      rcases hor with ⟨hs, hb⟩ | ⟨hs, hb⟩
      · exact ⟨scoreAlert e m o c rsi "LONG",
          (evalCoin_some_iff r e m o c _).2 ⟨hps, rsi, hr, Or.inl ⟨hs, hb, rfl⟩⟩⟩
      · exact ⟨scoreAlert e m o c rsi "SHORT",
          (evalCoin_some_iff r e m o c _).2 ⟨hps, rsi, hr, Or.inr ⟨hs, hb, rfl⟩⟩⟩

/-- Concrete shorts-crowded coin used by gate witnesses: avgRate −0.008,
OI $5M. -/
def demoShortsCoin : FundingCoin :=
  { coin := "BTC", avgRate := -8 / 1000, minRate := -8 / 1000,
    maxRate := -8 / 1000, oiUsd := some 5000000, sentiment := "shorts_crowded" }

/-- C4, witness: the gate at its boundaries on `demoShortsCoin` — RSI 35
passes, RSI 36 leaves no alert, a missing RSI entry leaves no alert. -/
theorem rsiGate_characterization_witness :
    (evalCoin (fun _ => some 35) (fun _ => none) (fun _ => none) (fun _ => none)
        demoShortsCoin).isSome = true ∧
    (evalCoin (fun _ => some 36) (fun _ => none) (fun _ => none) (fun _ => none)
        demoShortsCoin).isSome = false ∧
    evalCoin (fun _ => none) (fun _ => none) (fun _ => none) (fun _ => none)
        demoShortsCoin = none := by
  have hps : passesStep1 demoShortsCoin = true := by
    simp [passesStep1, rule1, oiAboveThreshold, OI_THRESHOLD, demoShortsCoin]
    norm_num
  refine ⟨?_, ?_, ?_⟩
  · exact ((rsiGate_characterization (fun _ => some 35) (fun _ => none) (fun _ => none)
      (fun _ => none) demoShortsCoin).2 hps).2
      ⟨35, rfl, Or.inl ⟨rfl, by norm_num⟩⟩
  · rcases hq : (evalCoin (fun _ => some 36) (fun _ => none) (fun _ => none) (fun _ => none)
        demoShortsCoin).isSome with _ | _
    · rfl
    · exfalso
      rcases ((rsiGate_characterization (fun _ => some 36) (fun _ => none) (fun _ => none)
          (fun _ => none) demoShortsCoin).2 hps).1 hq with ⟨rsi, hr, hor⟩
      have : rsi = 36 := (Option.some_injective _ hr.symm)
      subst this
      rcases hor with ⟨-, hb⟩ | ⟨hs, -⟩
      · norm_num at hb
      · exact absurd hs (by decide)
  · exact (rsiGate_characterization (fun _ => none) (fun _ => none) (fun _ => none)
      (fun _ => none) demoShortsCoin).1 rfl

/-! ### Claim C10 — alert sentiment and direction invariant -/

/-- C10: every record that can enter `allCandidates` carries its coin's
sentiment, which is necessarily `shorts_crowded` or `longs_crowded`; its
`setupDirection` is `LONG` exactly when that sentiment is `shorts_crowded`
and `SHORT` otherwise; and a coin whose sentiment is anything else (for
example one qualifying only through the divergence rule) is always dropped
at the RSI gate and never produces an alert. -/
theorem alert_sentiment_invariant (r : String → Option ℚ) (e : String → Option EmaEntry)
    (m : String → Option MtfEntry) (o : String → Option ObEntry) :
    (∀ c a, evalCoin r e m o c = some a →
      a.sentiment = c.sentiment ∧
      (a.sentiment = "shorts_crowded" ∨ a.sentiment = "longs_crowded") ∧
      (a.setupDirection = "LONG" ↔ a.sentiment = "shorts_crowded") ∧
      (a.setupDirection = "SHORT" ↔ a.sentiment = "longs_crowded")) ∧
    (∀ c, c.sentiment ≠ "shorts_crowded" → c.sentiment ≠ "longs_crowded" →
      evalCoin r e m o c = none) := by
  constructor
  · intro c a ha
    rcases ((evalCoin_some_iff r e m o c a).1 ha).2 with ⟨rsi, -, hor⟩
    rcases hor with ⟨hs, -, rfl⟩ | ⟨hs, -, rfl⟩
    · refine ⟨rfl, Or.inl hs, ?_, ?_⟩
      · simp [scoreAlert, hs]
      · constructor
        · intro hd
          exact absurd hd (by simp [scoreAlert])
        · intro hsent
          rw [(scoreAlert_fields e m o c rsi "LONG").2.1, hs] at hsent
          exact absurd hsent (by decide)
    · refine ⟨rfl, Or.inr hs, ?_, ?_⟩
      · constructor
        · intro hd
          exact absurd hd (by simp [scoreAlert])
        · intro hsent
          rw [(scoreAlert_fields e m o c rsi "SHORT").2.1, hs] at hsent
          exact absurd hsent (by decide)
      · simp [scoreAlert, hs]
  · intro c hs hl
    cases hv : evalCoin r e m o c with
    | none => rfl
    | some a =>
      rcases ((evalCoin_some_iff r e m o c a).1 hv).2 with ⟨rsi, -, hor⟩
      rcases hor with ⟨h, -, -⟩ | ⟨h, -, -⟩
      · exact absurd h hs
      · exact absurd h hl

/-- C10, witness: a coin qualifying only via exchange divergence with
sentiment `neutral` (avgRate −0.02, spread 0.04, OI $10M, RSI present and
extreme) produces no alert. -/
theorem alert_sentiment_invariant_witness :
    evalCoin (fun _ => some 20) (fun _ => none) (fun _ => none) (fun _ => none)
      { coin := "XYZ", avgRate := -2 / 100, minRate := -4 / 100, maxRate := 0,
        oiUsd := some 10000000, sentiment := "neutral" } = none := by
  exact (alert_sentiment_invariant (fun _ => some 20) (fun _ => none) (fun _ => none)
    (fun _ => none)).2 _ (by decide) (by decide)

/-! ### Claim C6 — conviction monotonicity -/

theorem rank_le_very_high (cv : Conviction) : cv.rank ≤ Conviction.rank .VERY_HIGH := by
  cases cv <;> decide

theorem emaStep_cases (d : String) (ema : Option EmaEntry) :
    emaStep d ema = (false, .MEDIUM) ∨ emaStep d ema = (false, .MEDIUM_HIGH) ∨
    emaStep d ema = (true, .HIGH) ∨ emaStep d ema = (true, .MEDIUM_HIGH) := by
  cases ema with
  | none => exact Or.inl rfl
  | some ee =>
    unfold emaStep
    repeat' split
    all_goals simp

theorem tripleStep_true (cv : Conviction) : tripleStep true cv = .HIGH := rfl

theorem mtfStep_match_long (mm : MtfEntry) (cv : Conviction)
    (h : mm.alignment = "BEARISH_ALIGNED") :
    mtfStep "LONG" (some mm) true cv = .VERY_HIGH := by
  simp [mtfStep, h]

theorem mtfStep_match_short (mm : MtfEntry) (cv : Conviction)
    (h : mm.alignment = "BULLISH_ALIGNED") :
    mtfStep "SHORT" (some mm) true cv = .VERY_HIGH := by
  simp [mtfStep, h]

theorem mtfStep_rank_le (d : String) (mm : Option MtfEntry) (t : Bool) (cv : Conviction) :
    cv.rank ≤ (mtfStep d mm t cv).rank := by
  cases mm with
  | none => exact le_refl _
  | some x =>
    unfold mtfStep
    repeat' split
    all_goals first
      | exact le_refl _
      | exact rank_le_very_high cv

theorem obStep_rank_le (d : String) (ob : Option ObEntry) (cv : Conviction) :
    cv.rank ≤ (obStep d ob cv).rank := by
  cases ob with
  | none => exact le_refl _
  | some x =>
    unfold obStep
    repeat' split
    all_goals first
      | exact le_refl _
      | exact rank_le_very_high cv

theorem mtfStep_not_triple (d : String) (mm : Option MtfEntry) (cv : Conviction) :
    mtfStep d mm false cv = cv := by
  cases mm with
  | none => rfl
  | some x =>
    unfold mtfStep
    repeat' split
    all_goals first
      | rfl
      | simp_all

theorem obStep_medium (d : String) (ob : Option ObEntry) :
    obStep d ob .MEDIUM = .MEDIUM := by
  cases ob with
  | none => rfl
  | some x =>
    unfold obStep
    repeat' split
    all_goals simp_all

theorem obStep_very_high (d : String) (ob : Option ObEntry) :
    obStep d ob .VERY_HIGH = .VERY_HIGH := by
  cases ob with
  | none => rfl
  | some x =>
    unfold obStep
    repeat' split
    all_goals simp_all

/-- A candidate evaluated with no EMA entry for its coin always ends at the
base conviction `MEDIUM`: triple confluence is impossible, the MTF boost
requires triple confluence, and the orderbook boost requires `HIGH`. -/
theorem conviction_medium_of_no_ema (r : String → Option ℚ) (e : String → Option EmaEntry)
    (m : String → Option MtfEntry) (o : String → Option ObEntry) (c : FundingCoin)
    (a : Alert) (hema : e c.coin = none) (ha : evalCoin r e m o c = some a) :
    a.conviction = .MEDIUM := by
  rcases ((evalCoin_some_iff r e m o c a).1 ha).2 with ⟨rsi, -, hor⟩
  rcases hor with ⟨-, -, rfl⟩ | ⟨-, -, rfl⟩ <;>
    rw [(scoreAlert_fields e m o c rsi _).2.2.2.2.2, hema] <;>
    simp only [emaStep, tripleStep, Bool.false_eq_true, if_false, mtfStep_not_triple,
      obStep_medium]

/-- C6: (1) a candidate evaluated with its EMA entry absent never grades
higher than the same candidate evaluated with any EMA data, because the
no-EMA run is pinned at `MEDIUM`; (2) within one evaluation the conviction
never decreases across the EMA, triple-confluence, multi-timeframe and
orderbook steps; (3) triple confluence pins conviction at `HIGH` or above,
and a direction-matching multi-timeframe alignment on top of triple
confluence yields exactly `VERY HIGH`; (4) conviction is always one of the
four grades. -/
theorem conviction_monotonic (r : String → Option ℚ) (e eNo : String → Option EmaEntry)
    (m : String → Option MtfEntry) (o : String → Option ObEntry) :
    (∀ c a aNo, eNo c.coin = none →
      evalCoin r eNo m o c = some aNo → evalCoin r e m o c = some a →
      aNo.conviction.rank ≤ a.conviction.rank) ∧
    (∀ (d : String) (ema : Option EmaEntry) (mm : Option MtfEntry) (ob : Option ObEntry),
      Conviction.rank .MEDIUM ≤ (emaStep d ema).2.rank ∧
      (emaStep d ema).2.rank ≤ (tripleStep (emaStep d ema).1 (emaStep d ema).2).rank ∧
      (∀ t cv, cv.rank ≤ (mtfStep d mm t cv).rank) ∧
      (∀ cv, cv.rank ≤ (obStep d ob cv).rank)) ∧
    (∀ c a, evalCoin r e m o c = some a → a.tripleConfluence = true →
      Conviction.rank .HIGH ≤ a.conviction.rank ∧
      (∀ mm, m c.coin = some mm →
        ((a.setupDirection = "LONG" ∧ mm.alignment = "BEARISH_ALIGNED") ∨
         (a.setupDirection = "SHORT" ∧ mm.alignment = "BULLISH_ALIGNED")) →
        a.conviction = .VERY_HIGH)) ∧
    (∀ c a, evalCoin r e m o c = some a →
      (a.conviction = .MEDIUM ∨ a.conviction = .MEDIUM_HIGH ∨
       a.conviction = .HIGH ∨ a.conviction = .VERY_HIGH)) := by
  refine ⟨?_, ?_, ?_, ?_⟩
  · intro c a aNo hema hNo hSome
    rw [conviction_medium_of_no_ema r eNo m o c aNo hema hNo]
    exact Nat.zero_le _
  · intro d ema mm ob
    refine ⟨Nat.zero_le _, ?_, fun t cv => mtfStep_rank_le d mm t cv,
      fun cv => obStep_rank_le d ob cv⟩
    rcases emaStep_cases d ema with h | h | h | h <;> rw [h] <;> decide
  · intro c a ha htriple
    rcases ((evalCoin_some_iff r e m o c a).1 ha).2 with ⟨rsi, -, hor⟩
    rcases hor with ⟨-, -, rfl⟩ | ⟨-, -, rfl⟩
    · have hconf : (emaStep "LONG" (e c.coin)).1 = true := by
        have h1 := (scoreAlert_fields e m o c rsi "LONG").2.2.2.2.1
        rw [htriple] at h1
        exact h1.symm
      have hconv := (scoreAlert_fields e m o c rsi "LONG").2.2.2.2.2
      rw [hconf, tripleStep_true] at hconv
      constructor
      · rw [hconv]
        exact le_trans (mtfStep_rank_le "LONG" (m c.coin) true .HIGH)
          (obStep_rank_le "LONG" (o c.coin) _)
      · intro mm hmm hdir
        rcases hdir with ⟨-, hal⟩ | ⟨hL, -⟩
        · rw [hconv, hmm, mtfStep_match_long mm _ hal, obStep_very_high]
        · rw [(scoreAlert_fields e m o c rsi "LONG").2.2.1] at hL
          exact absurd hL (by decide)
    · have hconf : (emaStep "SHORT" (e c.coin)).1 = true := by
        have h1 := (scoreAlert_fields e m o c rsi "SHORT").2.2.2.2.1
        rw [htriple] at h1
        exact h1.symm
      have hconv := (scoreAlert_fields e m o c rsi "SHORT").2.2.2.2.2
      rw [hconf, tripleStep_true] at hconv
      constructor
      · rw [hconv]
        exact le_trans (mtfStep_rank_le "SHORT" (m c.coin) true .HIGH)
          (obStep_rank_le "SHORT" (o c.coin) _)
      · intro mm hmm hdir
        rcases hdir with ⟨hL, -⟩ | ⟨-, hal⟩
        · rw [(scoreAlert_fields e m o c rsi "SHORT").2.2.1] at hL
          exact absurd hL (by decide)
        · rw [hconv, hmm, mtfStep_match_short mm _ hal, obStep_very_high]
  · intro c a ha
    cases hcv : a.conviction
    · exact Or.inl rfl
    · exact Or.inr (Or.inl rfl)
    · exact Or.inr (Or.inr (Or.inl rfl))
    · exact Or.inr (Or.inr (Or.inr rfl))

/-- EMA snapshot entry in the EMA-200 battle zone, for witnesses. -/
def demoEma : EmaEntry :=
  { trend := "BELOW_200", alignment := "BEARISH", priceVsEMA200 := 1,
    signalTypes := ["NEAR_EMA200"] }

/-- Multi-timeframe snapshot entry with all timeframes bearish, for
witnesses. -/
def demoMtf : MtfEntry := { alignment := "BEARISH_ALIGNED", rsiDivergence := none }

/-- Orderbook snapshot entry with buy pressure, for witnesses. -/
def demoOb : ObEntry := { pressure := "buy_pressure" }

/-- C6, witness: the spec's end-to-end scenario — shorts crowded, RSI 28,
EMA battle zone, all timeframes bearish — graded through the theorem:
conviction is exactly `VERY HIGH`. -/
theorem conviction_monotonic_witness :
    (scoreAlert (fun _ => some demoEma) (fun _ => some demoMtf) (fun _ => some demoOb)
        demoShortsCoin 28 "LONG").conviction = Conviction.VERY_HIGH := by
  have hps : passesStep1 demoShortsCoin = true := by
    simp [passesStep1, rule1, oiAboveThreshold, OI_THRESHOLD, demoShortsCoin]
    norm_num
  have hEval : evalCoin (fun _ => some (28 : ℚ)) (fun _ => some demoEma)
      (fun _ => some demoMtf) (fun _ => some demoOb) demoShortsCoin
      = some (scoreAlert (fun _ => some demoEma) (fun _ => some demoMtf)
          (fun _ => some demoOb) demoShortsCoin 28 "LONG") :=
    (evalCoin_some_iff _ _ _ _ _ _).2 ⟨hps, 28, rfl, Or.inl ⟨rfl, by norm_num, rfl⟩⟩
  have htriple : (scoreAlert (fun _ => some demoEma) (fun _ => some demoMtf)
      (fun _ => some demoOb) demoShortsCoin 28 "LONG").tripleConfluence = true := by
    simp [scoreAlert, emaStep, demoEma]
  exact ((conviction_monotonic (fun _ => some 28) (fun _ => some demoEma)
      (fun _ => none) (fun _ => some demoMtf) (fun _ => some demoOb)).2.2.1
      demoShortsCoin _ hEval htriple).2 demoMtf rfl (Or.inl ⟨rfl, rfl⟩)

/-! ### Association-list lemmas for the cooldown state -/

theorem lookup_cons_if (a k : String) (b : ℕ) (es : CooldownState) :
    List.lookup a ((k, b) :: es) = if a = k then some b else List.lookup a es := by
  rw [List.lookup_cons]
  by_cases h : a = k
  · subst h
    simp
  · have hb : (a == k) = false := by simpa using h
    rw [hb, if_neg h]

theorem lookup_map_replace_ne (st : CooldownState) (k k' : String) (v : ℕ) (h : k ≠ k') :
    List.lookup k (st.map (fun p => if p.1 == k' then (k', v) else p))
      = List.lookup k st := by
  induction st with
  | nil => rfl
  | cons p ps ih =>
    obtain ⟨pk, pv⟩ := p
    by_cases hp : pk = k'
    · subst hp
      simp only [List.map_cons, beq_self_eq_true, if_true]
      rw [lookup_cons_if, lookup_cons_if, if_neg h, if_neg h]
      exact ih
    · have hb : (pk == k') = false := by simpa using hp
      simp only [List.map_cons, hb, Bool.false_eq_true, if_false]
      rw [lookup_cons_if, lookup_cons_if]
      by_cases hk : k = pk
      · simp [hk]
      · rw [if_neg hk, if_neg hk]
        exact ih

theorem lookup_map_replace_self (st : CooldownState) (k' : String) (v : ℕ)
    (h : st.any (fun p => p.1 == k') = true) :
    List.lookup k' (st.map (fun p => if p.1 == k' then (k', v) else p)) = some v := by
  induction st with
  | nil => simp at h
  | cons p ps ih =>
    obtain ⟨pk, pv⟩ := p
    by_cases hp : pk = k'
    · subst hp
      simp only [List.map_cons, beq_self_eq_true, if_true]
      rw [lookup_cons_if, if_pos rfl]
    · have hb : (pk == k') = false := by simpa using hp
      simp only [List.map_cons, hb, Bool.false_eq_true, if_false]
      rw [lookup_cons_if, if_neg (fun hkk => hp hkk.symm)]
      apply ih
      simp only [List.any_cons, Bool.or_eq_true] at h
      rcases h with h | h
      · exact absurd (by simpa using h) hp
      · exact h

theorem lookup_append_single (st : CooldownState) (k k' : String) (v : ℕ)
    (h : st.any (fun p => p.1 == k') = false) :
    List.lookup k (st ++ [(k', v)])
      = if k = k' then some v else List.lookup k st := by
  induction st with
  | nil =>
    simp only [List.nil_append]
    rw [lookup_cons_if]
  | cons p ps ih =>
    obtain ⟨pk, pv⟩ := p
    simp only [List.any_cons, Bool.or_eq_false_iff] at h
    have hpk : pk ≠ k' := by simpa using h.1
    simp only [List.cons_append]
    rw [lookup_cons_if, lookup_cons_if]
    by_cases hk : k = pk
    · have hne : k ≠ k' := fun hkk => hpk (hk ▸ hkk)
      rw [if_pos hk, if_neg hne, if_pos hk]
    · rw [if_neg hk, if_neg hk, ih (by simpa using h.2)]

theorem lookup_insertTs (st : CooldownState) (k k' : String) (v : ℕ) :
    List.lookup k (insertTs st k' v) = if k = k' then some v else List.lookup k st := by
  unfold insertTs
  by_cases hmem : st.any (fun p => p.1 == k') = true
  · rw [if_pos hmem]
    by_cases hk : k = k'
    · rw [if_pos hk, hk]
      exact lookup_map_replace_self st k' v hmem
    · rw [if_neg hk]
      exact lookup_map_replace_ne st k k' v hk
  · rw [if_neg hmem]
    apply lookup_append_single
    simp only [Bool.not_eq_true] at hmem
    exact hmem

theorem lookup_foldl_insert (as : List Alert) (st : CooldownState) (now : ℕ) (k : String) :
    List.lookup k (as.foldl (fun s a => insertTs s (alertKey a) now) st)
      = if as.any (fun a => alertKey a == k) then some now else List.lookup k st := by
  induction as generalizing st with
  | nil => simp
  | cons a tl ih =>
    simp only [List.foldl_cons, List.any_cons]
    rw [ih]
    by_cases htl : tl.any (fun b => alertKey b == k) = true
    · simp [htl]
    · have htl' : (tl.any fun b => alertKey b == k) = false := by
        simp only [Bool.not_eq_true] at htl
        exact htl
      simp only [htl', Bool.or_false, Bool.false_eq_true, if_false]
      rw [lookup_insertTs]
      by_cases hk : k = alertKey a
      · rw [if_pos hk, if_pos (by simp [hk])]
      · rw [if_neg hk, if_neg (by
          simp only [beq_iff_eq]
          exact fun hkk => hk hkk.symm)]

/-- Inversion of a completed run into its stages. -/
theorem runSqueeze_ok_elim (inp : RunInput) (out : RunOutput)
    (h : runSqueeze inp = .ok out) :
    ∃ coins, inp.funding = some coins ∧
      out.alerts = newAlertsOf inp coins ∧
      out.allCandidates = candidatesOf inp coins ∧
      out.finalState = finalStateOf inp coins := by
  cases hf : inp.funding with
  | none =>
    unfold runSqueeze at h
    rw [hf] at h
    cases h
  | some coins =>
    unfold runSqueeze at h
    rw [hf] at h
    injection h with h2
    subst h2
    exact ⟨coins, rfl, rfl, rfl, rfl⟩

/-! ### Claim C5 — cooldown filter -/

/-- C5, amended: a candidate is *kept* in `newAlerts` iff strictly more than
`COOLDOWN` (4h) elapsed since the recorded timestamp — so it is suppressed
iff the elapsed time is at most 4 hours, the boundary case "exactly 4 hours"
included; kept candidates get their record set to `now`; every gated
candidate appears in `allCandidates` regardless of suppression. -/
theorem cooldown_filter_characterization (inp : RunInput) (out : RunOutput)
    (h : runSqueeze inp = .ok out) :
    (∀ a, a ∈ out.allCandidates →
      (a ∈ out.alerts ↔
        COOLDOWN < (inp.now : ℤ) - (lookupTs inp.state0 (alertKey a) : ℤ))) ∧
    (∀ a, a ∈ out.alerts → a ∈ out.allCandidates) ∧
    (∀ a, a ∈ out.alerts → List.lookup (alertKey a) out.finalState = some inp.now) ∧
    (∀ a, a ∈ out.allCandidates → a ∉ out.alerts →
      (inp.now : ℤ) - (lookupTs inp.state0 (alertKey a) : ℤ) ≤ COOLDOWN) := by
  obtain ⟨coins, hf, halerts, hcand, hfinal⟩ := runSqueeze_ok_elim inp out h
  have hmem : ∀ a, a ∈ out.alerts ↔ a ∈ out.allCandidates ∧ pastCooldown inp a = true := by
    intro a
    rw [halerts, hcand, newAlertsOf]
    exact List.mem_filter
  have hpast : ∀ a, pastCooldown inp a = true ↔
      COOLDOWN < (inp.now : ℤ) - (lookupTs inp.state0 (alertKey a) : ℤ) := by
    intro a
    simp [pastCooldown]
  refine ⟨?_, ?_, ?_, ?_⟩
  · intro a hc
    rw [hmem a]
    constructor
    · intro hx
      exact (hpast a).1 hx.2
    · intro hlt
      exact ⟨hc, (hpast a).2 hlt⟩
  · intro a ha
    exact ((hmem a).1 ha).1
  · intro a ha
    have ha' : a ∈ newAlertsOf inp coins := halerts ▸ ha
    rw [hfinal]
    unfold finalStateOf
    rw [lookup_foldl_insert]
    have hany : ((newAlertsOf inp coins).any fun b => alertKey b == alertKey a) = true :=
      List.any_eq_true.2 ⟨a, ha', beq_self_eq_true _⟩
    rw [if_pos hany]
  · intro a hc hna
    rcases le_or_lt ((inp.now : ℤ) - (lookupTs inp.state0 (alertKey a) : ℤ)) COOLDOWN with hle | hlt
    · exact hle
    · exact absurd ((hmem a).2 ⟨hc, (hpast a).2 hlt⟩) hna

/-- The alert produced for `demoShortsCoin` with RSI 28 and no optional
snapshots, used in concrete runs. -/
def btcLongAlert : Alert :=
  { coin := "BTC", avgRate := -8 / 1000, oiUsd := some 5000000,
    sentiment := "shorts_crowded", setupDirection := "LONG", rsiOut := some 28,
    emaConfirms := false, tripleConfluence := false, conviction := .MEDIUM }

/-- Run input whose only candidate's last alert is exactly `COOLDOWN`
milliseconds old. -/
def boundaryInput : RunInput :=
  { funding := some [demoShortsCoin], rsi := some [("BTC", 28)], ema := none,
    mtf := none, ob := none, state0 := [("shorts_crowded_BTC", 0)],
    now := 14400000 }

/-- C5, counterexample: with exactly 4 hours elapsed (now = 14,400,000 ms,
record = 0) the candidate is in `allCandidates` but suppressed from
`newAlerts`, although the elapsed time is *not* less than 4 hours — the
code's test is `elapsed > COOLDOWN`, so suppression happens iff
`elapsed ≤ COOLDOWN`, not iff `elapsed < COOLDOWN` as claimed. -/
theorem cooldown_boundary_suppressed :
    runSqueeze boundaryInput = .ok
      { hasNewAlerts := false, alerts := [], allCandidates := [btcLongAlert],
        finalState := [("shorts_crowded_BTC", 0)] } ∧
    ¬ ((boundaryInput.now : ℤ) - 0 < COOLDOWN) := by
  exact ⟨rfl, by decide⟩

/-- C5, witness: the amended characterization applied to `boundaryInput`:
the lone candidate is suppressed and its elapsed time is within (≤) the
cooldown. -/
theorem cooldown_filter_characterization_witness :
    (boundaryInput.now : ℤ)
        - (lookupTs boundaryInput.state0 (alertKey btcLongAlert) : ℤ) ≤ COOLDOWN := by
  have hrun : runSqueeze boundaryInput = .ok
      { hasNewAlerts := false, alerts := [], allCandidates := [btcLongAlert],
        finalState := [("shorts_crowded_BTC", 0)] } := rfl
  refine (cooldown_filter_characterization boundaryInput _ hrun).2.2.2 btcLongAlert
    (by simp) (by simp)

/-! ### Claim C7 — the shape of the persisted cooldown state -/

/-- C7, amended: every binding the run adds to the persisted state has key
`"<sentiment>_<instrument>"` — the *sentiment* string (`shorts_crowded` or
`longs_crowded`), not the LONG/SHORT direction — and value `now`; all other
bindings are carried over unchanged from the loaded state. -/
theorem cooldown_state_shape (inp : RunInput) (out : RunOutput)
    (h : runSqueeze inp = .ok out) (k : String) (v : ℕ)
    (hk : List.lookup k out.finalState = some v) :
    List.lookup k inp.state0 = some v ∨
    ∃ a, a ∈ out.alerts ∧ k = a.sentiment ++ "_" ++ a.coin ∧ v = inp.now ∧
      (a.sentiment = "shorts_crowded" ∨ a.sentiment = "longs_crowded") := by
  obtain ⟨coins, hf, halerts, hcand, hfinal⟩ := runSqueeze_ok_elim inp out h
  rw [hfinal] at hk
  unfold finalStateOf at hk
  rw [lookup_foldl_insert] at hk
  by_cases hany : ((newAlertsOf inp coins).any fun a => alertKey a == k) = true
  · rw [if_pos hany] at hk
    rcases List.any_eq_true.1 hany with ⟨a, hmem, hbeq⟩
    have hka : alertKey a = k := by simpa using hbeq
    have hv : v = inp.now := (Option.some_injective _ hk).symm
    have hcands : a ∈ candidatesOf inp coins := List.mem_filter.1 hmem |>.1
    rcases List.mem_filterMap.1 hcands with ⟨c, -, he⟩
    rcases ((evalCoin_some_iff _ _ _ _ c a).1 he).2 with ⟨rsi, -, hor⟩
    refine Or.inr ⟨a, halerts ▸ hmem, ?_, hv, ?_⟩
    · rw [← hka]
      rfl
    · rcases hor with ⟨hs, -, rfl⟩ | ⟨hs, -, rfl⟩
      · exact Or.inl ((scoreAlert_fields _ _ _ c rsi "LONG").2.1.trans hs)
      · exact Or.inr ((scoreAlert_fields _ _ _ c rsi "SHORT").2.1.trans hs)
  · rw [if_neg hany] at hk
    exact Or.inl hk

/-- Run input producing one fresh LONG alert from an empty state. -/
def freshInput : RunInput :=
  { funding := some [demoShortsCoin], rsi := some [("BTC", 28)], ema := none,
    mtf := none, ob := none, state0 := [], now := 1700000000000 }

/-- C7, counterexample: the state key the run writes is
`"shorts_crowded_BTC"` — built from the *sentiment*, not from a direction in
{LONG, SHORT}: it is not of the form `"LONG_<instrument>"` or
`"SHORT_<instrument>"` for any instrument. -/
theorem cooldown_key_uses_sentiment :
    runSqueeze freshInput = .ok
      { hasNewAlerts := true, alerts := [btcLongAlert],
        allCandidates := [btcLongAlert],
        finalState := [("shorts_crowded_BTC", 1700000000000)] } ∧
    (∀ i : String, "shorts_crowded_BTC" ≠ "LONG_" ++ i) ∧
    (∀ i : String, "shorts_crowded_BTC" ≠ "SHORT_" ++ i) := by
  refine ⟨rfl, ?_, ?_⟩ <;>
    · intro i h
      have hd := congrArg String.data h
      simp [String.data_append] at hd

/-- C7, witness: the amended shape theorem applied to `freshInput`: the
binding written for the fresh alert is the sentiment-keyed one with value
`now`. -/
theorem cooldown_state_shape_witness :
    List.lookup "shorts_crowded_BTC" freshInput.state0 = some 1700000000000 ∨
    ∃ a, a ∈ [btcLongAlert] ∧
      "shorts_crowded_BTC" = a.sentiment ++ "_" ++ a.coin ∧
      (1700000000000 : ℕ) = freshInput.now ∧
      (a.sentiment = "shorts_crowded" ∨ a.sentiment = "longs_crowded") := by
  have hrun : runSqueeze freshInput = .ok
      { hasNewAlerts := true, alerts := [btcLongAlert],
        allCandidates := [btcLongAlert],
        finalState := [("shorts_crowded_BTC", 1700000000000)] } := rfl
  exact cooldown_state_shape freshInput _ hrun "shorts_crowded_BTC" 1700000000000 rfl

/-! ### Claim C1 — mandatory versus degraded snapshot inputs -/

/-- C1, amended: only the *funding* snapshot is mandatory: its absence or
unparseability is fatal (non-zero exit before the output artifact or state
file is written).  An absent or unparseable *RSI* snapshot is caught,
logged, and degraded to an empty RSI map, after which every Step-1 candidate
is dropped at the RSI gate, so the run completes as an empty-result success,
still writing the output artifact and (unchanged) state. -/
theorem mandatory_inputs (inp : RunInput) :
    (inp.funding = none → runSqueeze inp = .error ()) ∧
    (∀ coins, inp.funding = some coins → inp.rsi = none →
      runSqueeze inp = .ok
        { hasNewAlerts := false, alerts := [], allCandidates := [],
          finalState := inp.state0 }) := by
  constructor
  · intro hf
    unfold runSqueeze
    rw [hf]
  · intro coins hf hrsi
    have hcand : candidatesOf inp coins = [] := by
      rw [candidatesOf, List.filterMap_eq_nil_iff]
      intro c hc
      apply evalCoin_none_of_rsi_missing
      simp [rsiDataOf, hrsi]
    have hnew : newAlertsOf inp coins = [] := by
      rw [newAlertsOf, hcand]
      rfl
    have hfin : finalStateOf inp coins = inp.state0 := by
      rw [finalStateOf, hnew]
      rfl
    simp [runSqueeze, hf, hnew, hcand, hfin]

/-- Run input with extreme funding but a missing RSI snapshot. -/
def noRsiInput : RunInput :=
  { funding := some [demoShortsCoin], rsi := none, ema := none,
    mtf := none, ob := none, state0 := [], now := 1700000000000 }

/-- C1, counterexample: with the funding snapshot present (an extreme,
high-OI coin) and the RSI snapshot absent, the run does *not* abort: it
completes, writing the output artifact with empty results and persisting
state — an empty-result success, which the claim says must not happen. -/
theorem rsi_missing_not_fatal :
    noRsiInput.rsi = none ∧
    runSqueeze noRsiInput = .ok
      { hasNewAlerts := false, alerts := [], allCandidates := [],
        finalState := [] } := ⟨rfl, rfl⟩

/-- Run input with no funding snapshot at all. -/
def noFundingInput : RunInput :=
  { funding := none, rsi := none, ema := none, mtf := none, ob := none,
    state0 := [], now := 0 }

/-- C1, witness: the amended behaviour at concrete inputs — a missing
funding snapshot is fatal, and a missing RSI snapshot yields the
empty-result success. -/
theorem mandatory_inputs_witness :
    runSqueeze noFundingInput = .error () ∧
    runSqueeze noRsiInput = .ok
      { hasNewAlerts := false, alerts := [], allCandidates := [],
        finalState := [] } := by
  constructor
  · exact (mandatory_inputs _).1 rfl
  · have h := (mandatory_inputs noRsiInput).2 [demoShortsCoin] rfl rfl
    simpa using h

/-! ### Claim C9 — state persistence round-trip

`saveState` is `fs.writeFileSync(STATE_FILE, JSON.stringify(state, null, 2))`
and `loadState` is `JSON.parse(fs.readFileSync(STATE_FILE))` with a catch-all
returning `{ lastAlerted: {} }`.  The JSON layer is modelled concretely: the
encoder below emits the canonical (whitespace-free) JSON text of
`{ lastAlerted: { key: millis, ... } }` — `JSON.stringify`'s 2-space
pretty-printing differs only in insignificant whitespace — and the decoder is
a recursive-descent parser for exactly that grammar, with parse failure
modelling the catch.  Keys containing `"` or `\` would be escaped by the
real `JSON.stringify`; the encoder does not escape, so the round-trip
theorem assumes keys free of those characters (every key the monitor writes
is `<sentiment>_<coin>`, which qualifies). -/

/-- Decimal digit to character. -/
def digitChar : ℕ → Char
  | 0 => '0'
  | 1 => '1'
  | 2 => '2'
  | 3 => '3'
  | 4 => '4'
  | 5 => '5'
  | 6 => '6'
  | 7 => '7'
  | 8 => '8'
  | _ => '9'

/-- Decimal digits of `n`, most significant first. -/
def natDigits (n : ℕ) : List ℕ :=
  if n < 10 then [n] else natDigits (n / 10) ++ [n % 10]
termination_by n
decreasing_by exact Nat.div_lt_self (by omega) (by omega)

/-- Value of a most-significant-first digit list. -/
def digitsVal (ds : List ℕ)  : ℕ := ds.foldl (fun a d => a * 10 + d) 0

/-- The characters of `n` in decimal. -/
def natChars (n : ℕ) : List Char := (natDigits n).map digitChar

/-- Numeric value of a digit character. -/
def charVal (c : Char) : ℕ := c.toNat - 48

/-- Recognizer for decimal digit characters. -/
def isDigitChar (c : Char) : Bool := decide ('0' ≤ c) && decide (c ≤ '9')

/-- Longest digit run at the head of the input, plus the rest. -/
def readDigits : List Char → List ℕ × List Char
  | [] => ([], [])
  | c :: cs =>
    if isDigitChar c then
      let r := readDigits cs
      (charVal c :: r.1, r.2)
    else ([], c :: cs)

/-- Parse a decimal natural number (at least one digit). -/
def parseNat (cs : List Char) : Option (ℕ × List Char) :=
  match readDigits cs with
  | ([], _) => none
  | (ds, rest) => some (digitsVal ds, rest)

/-- Read the characters of an object key up to the closing quote. -/
def readKey : List Char → Option (List Char × List Char)
  | [] => none
  | c :: cs =>
    if c = '"' then some ([], cs)
    else
      match readKey cs with
      | none => none
      | some (k, r) => some (c :: k, r)

/-- Parse one `"key":value` pair. -/
def parseEntry (cs : List Char) : Option ((String × ℕ) × List Char) :=
  match cs with
  | '"' :: cs1 =>
    match readKey cs1 with
    | some (k, ':' :: cs3) =>
      match parseNat cs3 with
      | some (v, cs4) => some ((String.mk k, v), cs4)
      | none => none
    | _ => none
  | _ => none

/-- Parse a nonempty comma-separated entry sequence terminated by `}`
(consuming the `}`); `fuel` bounds the recursion depth. -/
def parseEntriesF : ℕ → List Char → Option (List (String × ℕ) × List Char)
  | 0, _ => none
  | fuel + 1, cs =>
    (parseEntry cs).bind fun ecs =>
      match ecs.2 with
      | c :: cs5 =>
        if c = ',' then
          (parseEntriesF fuel cs5).bind fun escs => some (ecs.1 :: escs.1, escs.2)
        else if c = '}' then some ([ecs.1], cs5)
        else none
      | [] => none

/-- Parse a `{...}` object of numeric fields. -/
def parseObj (cs : List Char) : Option (List (String × ℕ) × List Char) :=
  match cs with
  | c :: rest =>
    if c = '{' then
      if rest.head? = some '}' then some ([], rest.tail)
      else parseEntriesF rest.length rest
    else none
  | [] => none

/-- The fixed leading text of the state file. -/
def stateHeader : List Char := '{' :: '"' :: "lastAlerted".data ++ ['"', ':']

/-- Consume an exact expected character sequence. -/
def dropExact : List Char → List Char → Option (List Char)
  | [], cs => some cs
  | _ :: _, [] => none
  | p :: ps, c :: cs => if c = p then dropExact ps cs else none

/-- Encode one `"key":value` pair. -/
def encodeEntry (e : String × ℕ) : List Char :=
  '"' :: (e.1.data ++ '"' :: ':' :: natChars e.2)

/-- Encode the comma-separated entry sequence. -/
def encodeEntries : List (String × ℕ) → List Char
  | [] => []
  | [e] => encodeEntry e
  | e :: es => encodeEntry e ++ ',' :: encodeEntries es

/-- The characters of the persisted state file. -/
def encodeStateChars (st : CooldownState) : List Char :=
  stateHeader ++ ('{' :: (encodeEntries st ++ ['}', '}']))

/-- `saveState(state)`: serialize the state to the file contents. -/
def saveState (st : CooldownState) : String := String.mk (encodeStateChars st)

/-- Decode the state file contents. -/
def decodeStateChars (cs : List Char) : Option CooldownState :=
  (dropExact stateHeader cs).bind fun cs1 =>
    (parseObj cs1).bind fun strest =>
      if strest.2 = ['}'] then some strest.1 else none

/-- `loadState()`: `none` models an absent state file (the read throws); a
failed parse models `JSON.parse` throwing; both land in the catch, which
returns the empty mapping. -/
def loadState (file : Option String) : CooldownState :=
  match file with
  | none => []
  | some s =>
    match decodeStateChars s.data with
    | none => []
    | some st => st

/-- A key the encoder represents exactly as real `JSON.stringify` would:
no quote and no backslash characters. -/
def goodKey (s : String) : Prop := '"' ∉ s.data ∧ '\\' ∉ s.data

/-- All keys of the mapping are `goodKey`s. -/
def goodState (st : CooldownState) : Prop := ∀ e ∈ st, goodKey e.1

/-- The input does not start with a digit character. -/
def headNotDigit : List Char → Prop
  | [] => True
  | c :: _ => isDigitChar c = false

theorem digitsVal_append_single (ds : List ℕ) (d : ℕ) :
    digitsVal (ds ++ [d]) = digitsVal ds * 10 + d := by
  simp [digitsVal, List.foldl_append]

theorem digitsVal_natDigits (n : ℕ) : digitsVal (natDigits n) = n := by
  induction n using Nat.strong_induction_on with
  | _ n ih =>
    unfold natDigits
    split
    · simp [digitsVal]
    · rename_i h
      rw [digitsVal_append_single, ih (n / 10) (Nat.div_lt_self (by omega) (by omega))]
      omega

theorem natDigits_lt (n : ℕ) : ∀ d ∈ natDigits n, d < 10 := by
  induction n using Nat.strong_induction_on with
  | _ n ih =>
    unfold natDigits
    split
    · rename_i h
      intro d hd
      simp only [List.mem_singleton] at hd
      omega
    · rename_i h
      intro d hd
      rcases List.mem_append.1 hd with hmem | hmem
      · exact ih (n / 10) (Nat.div_lt_self (by omega) (by omega)) d hmem
      · simp only [List.mem_singleton] at hmem
        subst hmem
        exact Nat.mod_lt _ (by omega)

theorem natDigits_ne_nil (n : ℕ) : natDigits n ≠ [] := by
  unfold natDigits
  split <;> simp

theorem charVal_digitChar {d : ℕ} (h : d < 10) : charVal (digitChar d) = d := by
  interval_cases d <;> decide

theorem isDigitChar_digitChar {d : ℕ} (h : d < 10) : isDigitChar (digitChar d) = true := by
  interval_cases d <;> decide

theorem readDigits_encode (ds : List ℕ) (h10 : ∀ d ∈ ds, d < 10) (rest : List Char)
    (hrest : headNotDigit rest) :
    readDigits (ds.map digitChar ++ rest) = (ds, rest) := by
  induction ds with
  | nil =>
    cases rest with
    | nil => rfl
    | cons c cs =>
      simp only [List.map_nil, List.nil_append, readDigits]
      rw [if_neg (by simp [headNotDigit] at hrest; simp [hrest])]
  | cons d ds ih =>
    have hd : d < 10 := h10 d (List.mem_cons_self d ds)
    simp only [List.map_cons, List.cons_append, readDigits,
      isDigitChar_digitChar hd, if_true, List.append_eq]
    rw [ih (fun x hx => h10 x (List.mem_cons_of_mem d hx)) ]
    rw [charVal_digitChar hd]

theorem parseNat_encode (n : ℕ) (rest : List Char) (hrest : headNotDigit rest) :
    parseNat (natChars n ++ rest) = some (n, rest) := by
  unfold parseNat natChars
  rw [readDigits_encode (natDigits n) (natDigits_lt n) rest hrest]
  cases hd : natDigits n with
  | nil => exact absurd hd (natDigits_ne_nil n)
  | cons d ds =>
    have : digitsVal (d :: ds) = n := by
      rw [← hd]
      exact digitsVal_natDigits n
    simp [hd, this]

theorem readKey_encode (k : List Char) (hk : '"' ∉ k) (rest : List Char) :
    readKey (k ++ '"' :: rest) = some (k, rest) := by
  induction k with
  | nil => simp [readKey]
  | cons c cs ih =>
    have hc : c ≠ '"' := fun hcq => hk (hcq ▸ List.mem_cons_self c cs)
    simp only [List.cons_append, readKey, if_neg hc, List.append_eq]
    rw [ih (fun hmem => hk (List.mem_cons_of_mem c hmem))]

theorem parseEntry_encode (k : String) (v : ℕ) (hk : '"' ∉ k.data) (rest : List Char)
    (hrest : headNotDigit rest) :
    parseEntry (encodeEntry (k, v) ++ rest) = some ((k, v), rest) := by
  have hshape : encodeEntry (k, v) ++ rest
      = '"' :: (k.data ++ '"' :: ':' :: (natChars v ++ rest)) := by
    simp [encodeEntry]
  rw [hshape]
  simp only [parseEntry]
  rw [readKey_encode k.data hk (':' :: (natChars v ++ rest))]
  simp only []
  rw [parseNat_encode v rest hrest]

theorem encodeEntries_length (st : CooldownState) :
    st.length ≤ (encodeEntries st).length := by
  induction st with
  | nil => simp [encodeEntries]
  | cons e es ih =>
    cases es with
    | nil => simp [encodeEntries, encodeEntry]
    | cons e2 es2 =>
      simp only [encodeEntries, encodeEntry, List.length_append, List.length_cons] at ih ⊢
      omega

theorem parseEntriesF_encode (st : CooldownState) (hne : st ≠ [])
    (hgood : ∀ e ∈ st, '"' ∉ (e.1 : String).data) (rest : List Char) (fuel : ℕ)
    (hfuel : st.length ≤ fuel) :
    parseEntriesF fuel (encodeEntries st ++ '}' :: rest) = some (st, rest) := by
  induction st generalizing fuel rest with
  | nil => exact absurd rfl hne
  | cons e es ih =>
    obtain ⟨k, v⟩ := e
    cases fuel with
    | zero => simp at hfuel
    | succ fuel =>
      have hk : '"' ∉ k.data := (hgood (k, v) (List.mem_cons_self _ _))
      cases es with
      | nil =>
        simp only [encodeEntries, parseEntriesF]
        rw [parseEntry_encode k v hk ('}' :: rest) (by
          show isDigitChar '}' = false
          decide)]
        simp only [Option.some_bind]
        simp
      | cons e2 es2 =>
        simp only [encodeEntries, parseEntriesF]
        have hshape : (encodeEntry (k, v) ++ ',' :: encodeEntries (e2 :: es2)) ++ '}' :: rest
            = encodeEntry (k, v) ++ ',' :: (encodeEntries (e2 :: es2) ++ '}' :: rest) := by
          simp
        rw [hshape, parseEntry_encode k v hk _ (by
          show isDigitChar ',' = false
          decide)]
        simp only [Option.some_bind, if_true]
        rw [ih (by simp) (fun x hx => hgood x (List.mem_cons_of_mem _ hx)) rest fuel
          (by
            simp only [List.length_cons] at hfuel ⊢
            omega)]
        simp only [Option.some_bind]

theorem dropExact_self (p cs : List Char) : dropExact p (p ++ cs) = some cs := by
  induction p with
  | nil => rfl
  | cons c ps ih =>
    simp only [List.cons_append, dropExact, if_pos rfl]
    exact ih

theorem encodeEntries_cons_head (e : String × ℕ) (es : List (String × ℕ))
    (rest : List Char) :
    (encodeEntries (e :: es) ++ rest).head? = some '"' := by
  cases es with
  | nil => simp [encodeEntries, encodeEntry]
  | cons e2 es2 => simp [encodeEntries, encodeEntry]

theorem decode_encode (st : CooldownState) (h : ∀ e ∈ st, '"' ∉ (e.1 : String).data) :
    decodeStateChars (encodeStateChars st) = some st := by
  unfold decodeStateChars encodeStateChars
  rw [dropExact_self]
  simp only [Option.some_bind]
  cases st with
  | nil => rfl
  | cons e es =>
    obtain ⟨k, v⟩ := e
    have hobj : parseObj ('{' :: (encodeEntries ((k, v) :: es) ++ ['}', '}']))
        = some ((k, v) :: es, ['}']) := by
      unfold parseObj
      dsimp only
      rw [if_pos rfl, if_neg (by
        rw [encodeEntries_cons_head]
        decide)]
      apply parseEntriesF_encode ((k, v) :: es) (by simp) h ['}']
      have h1 := encodeEntries_length ((k, v) :: es)
      simp only [List.length_append]
      omega
    rw [hobj]
    simp only [Option.some_bind]
    simp

/-- C9: the persisted cooldown state round-trips — saving the mapping a run
produced and loading it at the next run reproduces the identical key set and
timestamps (for the escape-free keys the monitor writes) — and `loadState`
on an absent state file does not fail but returns the empty mapping. -/
theorem state_roundtrip :
    (∀ st : CooldownState, goodState st → loadState (some (saveState st)) = st) ∧
    loadState none = [] := by
  constructor
  · intro st hgood
    unfold loadState saveState
    dsimp only
    rw [decode_encode st (fun e he => (hgood e he).1)]
  · rfl

/-- C9, witness: round-trip of the state written by `freshInput`'s run. -/
theorem state_roundtrip_witness :
    loadState (some (saveState [("shorts_crowded_BTC", 1700000000000)]))
      = [("shorts_crowded_BTC", 1700000000000)] := by
  apply state_roundtrip.1
  intro e he
  simp only [List.mem_singleton] at he
  subst he
  constructor <;> decide

end Squeeze

